import Mathlib

/-!
Verification of the pytboss transport/RPC layer and codec.

Shallow embedding of `pytboss/codec.py`, `pytboss/transport.py`,
`pytboss/ble.py` and `pytboss/wss.py`.  Machine bytes are modelled as `ℕ`
with explicit `&&& 255` masking, exactly as the Python source writes
`& 0xFF`; Python `float` uptimes are modelled as `ℚ`; Python dicts used as
JSON payloads are modelled as structures with `Option` fields (a `none`
field models an absent key).
-/

/-! ## Codec (`pytboss/codec.py`) -/

/-- The module-level base key `KEY` from `codec.py`. -/
def KEY : List ℕ := [0x8F, 0x80, 0x19, 0xCF, 0x77, 0x6C, 0xFE, 0xB7]

/-- `PADDING_LEN` from `codec.py`. -/
def PADDING_LEN : ℕ := 16

/-- The byte-walking loop of `encode` (`codec.py` lines 28-33): at position
`i` the input byte is XORed with `key[i % len(key)]`, and the key cell at
`(i+1) % len(key)` is mutated using the OUTPUT byte `m`. -/
def encodeLoop : List ℕ → List ℕ → ℕ → List ℕ
  | [], _, _ => []
  | b :: rest, key, i =>
    let k := key.getD (i % key.length) 0
    let m := (b ^^^ k) &&& 255
    let k2 := (i + 1) % key.length
    m :: encodeLoop rest (key.set k2 (((key.getD k2 0) ^^^ m) + i &&& 255)) (i + 1)

/-- The byte-walking loop of `decode` (`codec.py` lines 40-46): identical to
`encodeLoop` except that the key cell is mutated using the INPUT byte `b`
(the ciphertext byte) instead of the produced byte. -/
def decodeLoop : List ℕ → List ℕ → ℕ → List ℕ
  | [], _, _ => []
  | b :: rest, key, i =>
    let k := key.getD (i % key.length) 0
    let m := (b ^^^ k) &&& 255
    let k2 := (i + 1) % key.length
    m :: decodeLoop rest (key.set k2 (((key.getD k2 0) ^^^ b) + i &&& 255)) (i + 1)

/-- Everything after the first `0xFF` byte; models `ret[ret.index(0xFF)+1:]`. -/
def afterFirstFF : List ℕ → List ℕ
  | [] => []
  | b :: rest => if b = 255 then rest else afterFirstFF rest

/-- The `try: ... except ValueError: pass` tail of `decode`
(`codec.py` lines 48-51): strip through the first `0xFF` when one exists,
otherwise return the buffer unchanged. -/
def stripMarker (l : List ℕ) : List ℕ := if 255 ∈ l then afterFirstFF l else l

/-- `encode(data, key=KEY)` (`codec.py` lines 23-34).  The random pad drawn
by `randint(0, 254)` is passed explicitly as `pad`; the Python default
argument is `KEY`.  The source copies `key` before mutating, so the caller
key is passed by value here. -/
def encode (pad data key : List ℕ) : List ℕ :=
  encodeLoop (pad ++ 255 :: data) key 0

/-- `decode(data, key=KEY)` (`codec.py` lines 37-53). -/
def decode (data key : List ℕ) : List ℕ :=
  stripMarker (decodeLoop data key 0)

/-- `n = floor(max(uptime - 5, 0) / 10)` from `timed_key`
(`codec.py` line 13). -/
def bucket (u : ℚ) : ℕ := (Int.floor (max (u - 5) 0 / 10)).toNat

/-- The `while len(key) > 1` loop of `timed_key` (`codec.py` lines 15-19),
with explicit fuel (each iteration pops one element, so fuel equal to the
initial key length always suffices; exhausted fuel returns the residual
key, matching the loop-exit `ret.append(key[0])` for a singleton key). -/
def timedKeyGo : ℕ → List ℕ → ℕ → List ℕ
  | 0, key, _ => key
  | fuel + 1, key, n =>
    if key.length ≤ 1 then key
    else
      let p := n % key.length
      let v := key.getD p 0
      ((v ^^^ n) &&& 255) :: timedKeyGo fuel (key.eraseIdx p) ((n * v + v) &&& 255)

/-- `timed_key(uptime)` (`codec.py` lines 10-20): derive the rotating codec
key from the 10-second uptime bucket, starting from a copy of `KEY`. -/
def timed_key (u : ℚ) : List ℕ := timedKeyGo KEY.length KEY (bucket u)

/-! ## Transport base class (`pytboss/transport.py`) -/

/-- State of one `asyncio.Future` held in `Transport._rpc_futures`. -/
inductive FutState
  | pending
  | cancelled
  | resolvedOk (v : Option String)
  | resolvedErr (msg : String)
deriving DecidableEq

/-- The `_rpc_futures` dict: command id to the future registered for it
(`none` models an absent key). -/
def RpcMap : Type := ℕ → Option FutState

/-- Dict store `m[i] = v`. -/
def rpcUpdate (m : RpcMap) (i : ℕ) (v : Option FutState) : RpcMap :=
  fun j => if j = i then v else m j

/-- `m.pop(i, None)`: the map after removal (lookup of the popped value is
done separately with `m i`). -/
def rpcPop (m : RpcMap) (i : ℕ) : RpcMap := rpcUpdate m i none

/-- The empty `_rpc_futures` dict of a fresh transport. -/
def emptyRpcMap : RpcMap := fun _ => none

/-- `Transport._next_command_id` (`transport.py` line 105) and the
byte-identical `BleConnection._next_command_id` (`ble.py` line 136):
`self._last_command_id = self._last_command_id + 1 & 2047`.  Python `+`
binds tighter than `&`, so this is `(last + 1) & 2047`. -/
def nextCommandId (last : ℕ) : ℕ := (last + 1) &&& 2047

/-- `_last_command_id` after `n` calls to `_next_command_id`, starting from
the constructor's initial value `0`. -/
def idAfter : ℕ → ℕ
  | 0 => 0
  | n + 1 => nextCommandId (idAfter n)

/-- The id returned by the `n`-th allocation (0-indexed): `_next_command_id`
returns the freshly stored counter value. -/
def allocatedId (n : ℕ) : ℕ := idAfter (n + 1)

/-- The `error` object of a Response payload: `{code, message}`, each key
optional. -/
structure ErrObj where
  code : Option Int
  message : Option String
deriving DecidableEq

/-- A Response payload as consumed by `_on_command_response` /
`_on_rpc_data_received`: `id` is always present there; `error`, `result`
and a (top-level) `message` key may be absent. -/
structure RespPayload where
  id : ℕ
  error : Option ErrObj
  result : Option String
  message : Option String
deriving DecidableEq

/-- `Transport._on_command_response` (`transport.py` lines 111-123).
Returns the map after `pop(payload["id"], None)`, the boolean the method
returns, and the state of the popped future after the call (`none` when no
future was registered under that id).  A cancelled future is popped but not
resolved; otherwise an `error` payload sets
`RPCError(payload["error"].get("message", "Unknown error"))` and a
non-error payload sets `payload["result"]`. -/
def onCommandResponse (m : RpcMap) (p : RespPayload) : RpcMap × Bool × Option FutState :=
  match m p.id with
  | none => (rpcPop m p.id, false, none)
  | some fs =>
    if fs = FutState.cancelled then (rpcPop m p.id, true, some FutState.cancelled)
    else
      match p.error with
      | some e => (rpcPop m p.id, true, some (FutState.resolvedErr (e.message.getD "Unknown error")))
      | none => (rpcPop m p.id, true, some (FutState.resolvedOk p.result))

/-- The registration step of `Transport.send_command` (`transport.py`
line 84): `self._rpc_futures[cmd["id"]] = future` with a fresh pending
future. -/
def sendCommandRegister (m : RpcMap) (i : ℕ) : RpcMap :=
  rpcUpdate m i (some FutState.pending)

/-- The timeout path of `Transport.send_command` (`transport.py`
lines 85-87): when no matching Response arrives before the deadline,
`asyncio.timeout` cancels the suspended `await future` (the registered
future becomes cancelled) and the call raises `TimeoutError`.  The method
body contains no cleanup of `_rpc_futures`, so the map itself is not
touched beyond the future's cancellation. -/
def sendCommandTimeout (m : RpcMap) (i : ℕ) : RpcMap × Except String (Option String) :=
  (rpcUpdate m i (some FutState.cancelled), Except.error "TimeoutError")

/-! ## BLE transport (`pytboss/ble.py`) -/

/-- The future-resolution tail of `BleConnection._on_rpc_data_received`
(`ble.py` lines 197-205).  Identical bookkeeping to `onCommandResponse`,
except the error message is read from the TOP-LEVEL
`payload.get("message", "Unknown error")` rather than from the nested
error object. -/
def bleOnRpcDataDispatch (m : RpcMap) (p : RespPayload) : RpcMap × Option FutState :=
  match m p.id with
  | none => (rpcPop m p.id, none)
  | some fs =>
    if fs = FutState.cancelled then (rpcPop m p.id, some FutState.cancelled)
    else
      match p.error with
      | some _ => (rpcPop m p.id, some (FutState.resolvedErr (p.message.getD "Unknown error")))
      | none => (rpcPop m p.id, some (FutState.resolvedOk p.result))

/-- `BleConnection._on_debug_log_received` (`ble.py` lines 177-184): when a
debug-log subscriber is registered the raw notification bytes (here: the
ASCII line as characters) are handed to it unchanged; with no subscriber
the notification is dropped.  `forwarded` is the log of lines the
subscriber has received so far. -/
def bleOnDebugLogReceived (hasCb : Bool) (forwarded : List (List Char)) (data : List Char) :
    List (List Char) :=
  if hasCb then forwarded ++ [data] else forwarded

/-- Space-splitting helper for the spec-side debug-line grammar. -/
def splitOnSpaceAux : List Char → List Char → List (List Char)
  | [], acc => [acc.reverse]
  | c :: rest, acc =>
    if c = ' ' then acc.reverse :: splitOnSpaceAux rest []
    else splitOnSpaceAux rest (c :: acc)

/-- Split a character list on single spaces. -/
def splitOnSpace (l : List Char) : List (List Char) := splitOnSpaceAux l []

/-- Decimal digit-string parser for the spec-side debug-line grammar. -/
def parseDigits : List Char → ℕ → Option ℕ
  | [], acc => some acc
  | c :: rest, acc =>
    if c.isDigit then parseDigits rest (acc * 10 + (c.toNat - 48)) else none

/-- Parse a non-empty all-digit character list as a decimal number. -/
def parseNat : List Char → Option ℕ
  | [] => none
  | c :: rest => parseDigits (c :: rest) 0

/-- Modelled from the spec: the debug-log acceptance test of section 4.4,
`<head> <payload> (<checksum>)` with `len(payload) == checksum`.  No such
parsing exists anywhere under `pytboss/`; this spec-side definition is
used only to compare the specified filter with what `ble.py` does. -/
def specDebugLineChecksumOk (data : List Char) : Bool :=
  match splitOnSpace data with
  | [_head, payload, chk] =>
    chk.head? == some '(' && chk.getLast? == some ')' &&
      parseNat (chk.drop 1).dropLast == some payload.length
  | _ => false

/-! ## WebSocket transport (`pytboss/wss.py`) -/

/-- An incoming WebSocket frame as inspected by
`WebSocketConnection._handle_message`: each JSON key is optional. -/
structure WssPayload where
  app_id : Option String
  status : Option (List String)
  id : Option ℕ
  result : Option String
  error : Option ErrObj
  message : Option String
deriving DecidableEq

/-- Observable state of a `WebSocketConnection` during message handling:
the `_rpc_futures` dict plus logs of the calls made so far into the state
sink (one entry per call, holding the positional-argument list that call
received) and the vdata sink. -/
structure WssState where
  rpcFutures : RpcMap
  stateCalls : List (List String)
  vdataCalls : List String

/-- The dispatch chain of `_handle_message` after the `app_id` guard
(`wss.py` lines 126-141): a `status` frame makes ONE call to the state
callback with the array unpacked as positional arguments
(`await self._state_callback(*payload["status"])`); otherwise an `id`
frame is routed to `_on_command_response`; otherwise a truthy `result`
goes to the vdata callback. -/
def dispatchMessage (hasState hasVdata : Bool) (s : WssState) (p : WssPayload) : WssState :=
  match p.status with
  | some st =>
    if hasState then { s with stateCalls := s.stateCalls ++ [st] } else s
  | none =>
    match p.id with
    | some i =>
      { s with rpcFutures := (onCommandResponse s.rpcFutures ⟨i, p.error, p.result, p.message⟩).1 }
    | none =>
      match p.result with
      | some r =>
        if r ≠ "" then (if hasVdata then { s with vdataCalls := s.vdataCalls ++ [r] } else s)
        else s
      | none => s

/-- `WebSocketConnection._handle_message` (`wss.py` lines 117-141): a frame
carrying an `app_id` different from the session's own is ignored before any
dispatch; all other frames go through `dispatchMessage`. -/
def handleMessage (appId : String) (hasState hasVdata : Bool) (s : WssState) (p : WssPayload) :
    WssState :=
  match p.app_id with
  | some a => if a ≠ appId then s else dispatchMessage hasState hasVdata s p
  | none => dispatchMessage hasState hasVdata s p

/-- The backoff recurrence of `WebSocketConnection._subscribe`
(`wss.py` lines 82-94 with `_MAX_BACKOFF_TIME = 30.0`): `backoffSeq k` is
the duration of the `k`-th `asyncio.sleep` when every reconnect attempt
fails immediately — `backoff` starts at `1.0`, each failure sleeps the
current value and then sets `backoff = min(30.0, backoff * 2)`. -/
def backoffSeq : ℕ → ℚ
  | 0 => 1
  | k + 1 => min 30 (backoffSeq k * 2)

/-! ## Heap model for the codec's key copies (`codec.py`)

Python lists are mutable objects; `encode`, `decode` and `timed_key` each
start with `key = key.copy()` / `key = KEY.copy()` and mutate only the
copy.  To state that the caller's list object is untouched we model a tiny
heap of list objects addressed by index: the copy allocates a fresh cell at
the end of the heap and every subsequent write of the loop targets only
that fresh cell. -/

/-- A heap of Python list objects; a reference is an index. -/
abbrev Heap : Type := List (List ℕ)

/-- Dereference a list object (absent references read as `[]`). -/
def readRef (h : Heap) (r : ℕ) : List ℕ := h.getD r []

/-- Overwrite the list object behind reference `r`. -/
def writeRef (h : Heap) (r : ℕ) (v : List ℕ) : Heap := h.set r v

/-- Heap-level `encode` loop: the working key lives behind reference `kr`,
and the in-place cell update `key[k2] = ...` is a heap write to `kr`. -/
def encodeLoopH : List ℕ → Heap → ℕ → ℕ → List ℕ × Heap
  | [], h, _, _ => ([], h)
  | b :: rest, h, kr, i =>
    let key := readRef h kr
    let k := key.getD (i % key.length) 0
    let m := (b ^^^ k) &&& 255
    let k2 := (i + 1) % key.length
    let h2 := writeRef h kr (key.set k2 (((key.getD k2 0) ^^^ m) + i &&& 255))
    let rec2 := encodeLoopH rest h2 kr (i + 1)
    (m :: rec2.1, rec2.2)

/-- Heap-level `decode` loop (key update keyed on the input byte). -/
def decodeLoopH : List ℕ → Heap → ℕ → ℕ → List ℕ × Heap
  | [], h, _, _ => ([], h)
  | b :: rest, h, kr, i =>
    let key := readRef h kr
    let k := key.getD (i % key.length) 0
    let m := (b ^^^ k) &&& 255
    let k2 := (i + 1) % key.length
    let h2 := writeRef h kr (key.set k2 (((key.getD k2 0) ^^^ b) + i &&& 255))
    let rec2 := decodeLoopH rest h2 kr (i + 1)
    (m :: rec2.1, rec2.2)

/-- Heap-level `timed_key` loop: `key.pop(p)` is a heap write of the erased
list to the working reference. -/
def timedKeyGoH : ℕ → Heap → ℕ → ℕ → List ℕ × Heap
  | 0, h, kr, _ => (readRef h kr, h)
  | fuel + 1, h, kr, n =>
    let key := readRef h kr
    if key.length ≤ 1 then (key, h)
    else
      let p := n % key.length
      let v := key.getD p 0
      let h2 := writeRef h kr (key.eraseIdx p)
      let rec2 := timedKeyGoH fuel h2 kr ((n * v + v) &&& 255)
      (((v ^^^ n) &&& 255) :: rec2.1, rec2.2)

/-- `encode` on the heap: `key = key.copy()` allocates a fresh cell
(`h ++ [readRef h keyRef]`, reference `h.length`), then the loop runs
against the copy. -/
def encodeH (h : Heap) (keyRef : ℕ) (pad data : List ℕ) : List ℕ × Heap :=
  encodeLoopH (pad ++ 255 :: data) (h ++ [readRef h keyRef]) h.length 0

/-- `decode` on the heap, with the same copy-then-mutate discipline. -/
def decodeH (h : Heap) (keyRef : ℕ) (data : List ℕ) : List ℕ × Heap :=
  let rec2 := decodeLoopH data (h ++ [readRef h keyRef]) h.length 0
  (stripMarker rec2.1, rec2.2)

/-- `timed_key` on the heap: `key = KEY.copy()` where `keyRef` points at the
module-level `KEY` list object. -/
def timedKeyH (h : Heap) (keyRef : ℕ) (u : ℚ) : List ℕ × Heap :=
  timedKeyGoH (readRef h keyRef).length (h ++ [readRef h keyRef]) h.length (bucket u)

/-! ## Helper lemmas -/

/-- `x & 2047` is `x mod 2048`. -/
lemma land2047_eq_mod (x : ℕ) : x &&& 2047 = x % 2048 := by
  have h := Nat.and_pow_two_sub_one_eq_mod x 11
  norm_num at h
  exact h

/-- `x & 255` is `x mod 256`. -/
lemma land255_eq_mod (x : ℕ) : x &&& 255 = x % 256 := by
  have h := Nat.and_pow_two_sub_one_eq_mod x 8
  norm_num at h
  exact h

/-- The counter after `n` allocations is `n mod 2048`. -/
lemma idAfter_eq_mod (n : ℕ) : idAfter n = n % 2048 := by
  induction n with
  | zero => rfl
  | succ k ih =>
    simp only [idAfter, nextCommandId, ih, land2047_eq_mod]
    omega

/-- A `getD` at an in-range index is a member of the list. -/
lemma getD_mem_of_lt {l : List ℕ} {n : ℕ} (hn : n < l.length) (d : ℕ) : l.getD n d ∈ l := by
  rw [List.getD_eq_getElem?_getD, List.getElem?_eq_getElem hn]
  exact List.getElem_mem hn

/-- XOR of two bytes is a byte. -/
lemma xor_byte_lt {a b : ℕ} (ha : a < 256) (hb : b < 256) : a ^^^ b < 256 := by
  have h : a ^^^ b < 2 ^ 8 := Nat.xor_lt_two_pow (by norm_num [ha]) (by norm_num [hb])
  norm_num at h
  exact h

/-! ## Claim C3 -/

/-- Claim C3: consecutive ids from `_next_command_id` never repeat within
any window of 2048 allocations, the id allocated after id 2047 is 0, and
the counter update itself wraps 2047 to 0. -/
theorem c3_command_id_no_repeat_and_wrap (j k : ℕ) (hjk : j < k) (hwin : k < j + 2048) :
    allocatedId j ≠ allocatedId k ∧
    allocatedId 2046 = 2047 ∧ allocatedId 2047 = 0 ∧ nextCommandId 2047 = 0 := by
  refine ⟨?_, ?_, ?_, ?_⟩
  · simp only [allocatedId, idAfter_eq_mod]
    omega
  · simp only [allocatedId, idAfter_eq_mod]
  · simp only [allocatedId, idAfter_eq_mod]
  · simp only [nextCommandId, land2047_eq_mod]

/-- Witness for C3 at the window pair (0, 1). -/
theorem c3_command_id_witness :
    (0 : ℕ) < 1 ∧ 1 < 0 + 2048 ∧
    (allocatedId 0 ≠ allocatedId 1 ∧
      allocatedId 2046 = 2047 ∧ allocatedId 2047 = 0 ∧ nextCommandId 2047 = 0) :=
  ⟨by decide, by decide, c3_command_id_no_repeat_and_wrap 0 1 (by decide) (by decide)⟩

/-! ## Claim C5 -/

/-- The backoff value is the doubling sequence capped at 30. -/
lemma backoffSeq_eq_min (k : ℕ) : backoffSeq k = min 30 (2 ^ k) := by
  induction k with
  | zero => norm_num [backoffSeq]
  | succ n ih =>
    rw [backoffSeq, ih, pow_succ]
    rcases le_total ((2 : ℚ) ^ n) 30 with h | h
    · rw [min_eq_right h]
    · rw [min_eq_left h, min_eq_left (by norm_num), min_eq_left (by nlinarith)]

/-- Claim C5: the sleep delays of the reconnect loop under immediate
failures are exactly 1, 2, 4, 8, 16, 30, 30, ... seconds — the doubling
sequence from 1 capped at 30. -/
theorem c5_reconnect_backoff_sequence :
    (∀ k : ℕ, backoffSeq k = min 30 (2 ^ k)) ∧
    [backoffSeq 0, backoffSeq 1, backoffSeq 2, backoffSeq 3,
      backoffSeq 4, backoffSeq 5, backoffSeq 6] = [1, 2, 4, 8, 16, 30, 30] := by
  refine ⟨backoffSeq_eq_min, ?_⟩
  simp only [backoffSeq_eq_min]
  norm_num [min_def]

/-! ## Claim C9 -/

/-- Claim C9: `timed_key` depends on the uptime only through the 10-second
bucket `floor(max(uptime - 5, 0) / 10)`. -/
theorem c9_timed_key_bucketed (u1 u2 : ℚ)
    (h : ⌊max (u1 - 5) 0 / 10⌋ = ⌊max (u2 - 5) 0 / 10⌋) :
    timed_key u1 = timed_key u2 := by
  unfold timed_key bucket
  rw [h]

/-- Witness for C9 at uptimes 11 and 12 (both in bucket 0, as in the
repository's codec test). -/
theorem c9_timed_key_witness :
    ⌊max ((11 : ℚ) - 5) 0 / 10⌋ = ⌊max ((12 : ℚ) - 5) 0 / 10⌋ ∧
    timed_key 11 = timed_key 12 :=
  ⟨by norm_num, c9_timed_key_bucketed 11 12 (by norm_num)⟩

/-! ## Claim C2 -/

/-- The decode loop inverts the encode loop byte for byte: both loops
mutate the key with the same value (the ciphertext byte), so the evolving
keys coincide, and XORing twice with the same key byte is the identity. -/
lemma decodeLoop_encodeLoop (d : List ℕ) : ∀ (key : List ℕ) (i : ℕ),
    key ≠ [] → (∀ k ∈ key, k < 256) → (∀ b ∈ d, b < 256) →
    decodeLoop (encodeLoop d key i) key i = d := by
  induction d with
  | nil => intro key i _ _ _; rfl
  | cons b rest ih =>
    intro key i hk hkb hdb
    have hklen : 0 < key.length := List.length_pos.mpr hk
    have hik : i % key.length < key.length := Nat.mod_lt _ hklen
    have hkcur : key.getD (i % key.length) 0 < 256 := hkb _ (getD_mem_of_lt hik 0)
    have hb : b < 256 := hdb b (List.mem_cons_self _ _)
    simp only [encodeLoop, decodeLoop, List.cons.injEq]
    constructor
    · simp only [land255_eq_mod]
      rw [Nat.mod_eq_of_lt (xor_byte_lt hb hkcur), Nat.xor_cancel_right, Nat.mod_eq_of_lt hb]
    · apply ih
      · intro hcon
        have := List.length_set key ((i + 1) % key.length)
          (((key.getD ((i + 1) % key.length) 0) ^^^ ((b ^^^ key.getD (i % key.length) 0) &&& 255)) + i &&& 255)
        rw [hcon] at this
        simp at this
        omega
      · intro y hy
        rcases List.mem_or_eq_of_mem_set hy with hmem | heq
        · exact hkb _ hmem
        · rw [heq, land255_eq_mod]
          exact Nat.mod_lt _ (by norm_num)
      · intro y hy
        exact hdb y (List.mem_cons_of_mem _ hy)

/-- Stripping through the marker recovers the plaintext when no pad byte
is `0xFF`. -/
lemma afterFirstFF_pad_marker (pad x : List ℕ) (hpad : 255 ∉ pad) :
    afterFirstFF (pad ++ 255 :: x) = x := by
  induction pad with
  | nil => simp [afterFirstFF]
  | cons a rest ih =>
    have ha : a ≠ 255 := by
      intro h
      exact hpad (h ▸ List.mem_cons_self a rest)
    simp only [List.cons_append, afterFirstFF, if_neg ha]
    exact ih fun h => hpad (List.mem_cons_of_mem _ h)

/-- Claim C2: decoding with the same key recovers exactly the original
plaintext, for every non-empty plaintext (0xFF bytes included), every
non-empty byte key, and every pad of `PADDING_LEN` bytes drawn from
0..254. -/
theorem c2_decode_encode_roundtrip (pad x key : List ℕ)
    (hpadlen : pad.length = PADDING_LEN)
    (hpad : ∀ b ∈ pad, b ≤ 254)
    (hx : x ≠ []) (hxb : ∀ b ∈ x, b < 256)
    (hkey : key ≠ []) (hkeyb : ∀ k ∈ key, k < 256) :
    decode (encode pad x key) key = x := by
  unfold encode decode
  rw [decodeLoop_encodeLoop _ _ _ hkey hkeyb ?_]
  · rw [stripMarker, if_pos (by simp), afterFirstFF_pad_marker pad x ?_]
    intro h
    have := hpad _ h
    omega
  · intro b hb
    rcases List.mem_append.mp hb with h | h
    · have := hpad _ h
      omega
    · rcases List.mem_cons.mp h with h | h
      · omega
      · exact hxb _ h

/-- Witness for C2: a 16-byte pad, the real `KEY`, and a plaintext that
itself contains a `0xFF` byte. -/
theorem c2_roundtrip_witness :
    ([3, 1, 4, 1, 5, 9, 2, 6, 5, 3, 5, 8, 9, 7, 9, 3] : List ℕ).length = PADDING_LEN ∧
    (∀ b ∈ ([3, 1, 4, 1, 5, 9, 2, 6, 5, 3, 5, 8, 9, 7, 9, 3] : List ℕ), b ≤ 254) ∧
    ([0, 255, 171] : List ℕ) ≠ [] ∧
    (∀ b ∈ ([0, 255, 171] : List ℕ), b < 256) ∧
    KEY ≠ [] ∧ (∀ k ∈ KEY, k < 256) ∧
    decode (encode [3, 1, 4, 1, 5, 9, 2, 6, 5, 3, 5, 8, 9, 7, 9, 3] [0, 255, 171] KEY) KEY =
      [0, 255, 171] :=
  ⟨by decide, by decide, by decide, by decide, by decide, by decide,
    c2_decode_encode_roundtrip _ _ _ (by decide) (by decide) (by decide) (by decide)
      (by decide) (by decide)⟩

/-! ## Claim C1 -/

/-- Counterexample for C1: register a call with id 1 on a fresh transport,
let the timeout fire with no Response — the `_rpc_futures` map still holds
an entry for id 1 (the cancelled future); `send_command` removes nothing
on the timeout path. -/
theorem c1_timeout_counterexample :
    (sendCommandTimeout (sendCommandRegister emptyRpcMap 1) 1).1 1 ≠ none := by decide

/-- Amended C1: on timeout the call fails with a timeout error, but its
PendingCall entry is NOT removed — it stays in the map holding the
cancelled future until a matching Response arrives, whose handling then
removes it without resolving it. -/
theorem c1_timeout_keeps_entry (m : RpcMap) (i : ℕ) (p : RespPayload) (hp : p.id = i) :
    (sendCommandTimeout (sendCommandRegister m i) i).2 = Except.error "TimeoutError" ∧
    (sendCommandTimeout (sendCommandRegister m i) i).1 i = some FutState.cancelled ∧
    (onCommandResponse (sendCommandTimeout (sendCommandRegister m i) i).1 p).1 i = none ∧
    (onCommandResponse (sendCommandTimeout (sendCommandRegister m i) i).1 p).2.2 =
      some FutState.cancelled := by
  have hm : (sendCommandTimeout (sendCommandRegister m i) i).1 i = some FutState.cancelled := by
    simp [sendCommandTimeout, sendCommandRegister, rpcUpdate]
  refine ⟨rfl, hm, ?_, ?_⟩
  · simp only [onCommandResponse, hp, hm]
    simp [rpcPop, rpcUpdate]
  · simp only [onCommandResponse, hp, hm]
    simp

/-- Witness for C1's amended statement on a fresh transport with id 1. -/
theorem c1_timeout_witness :
    (⟨1, none, none, none⟩ : RespPayload).id = 1 ∧
    ((sendCommandTimeout (sendCommandRegister emptyRpcMap 1) 1).2 =
        Except.error "TimeoutError" ∧
      (sendCommandTimeout (sendCommandRegister emptyRpcMap 1) 1).1 1 =
        some FutState.cancelled ∧
      (onCommandResponse (sendCommandTimeout (sendCommandRegister emptyRpcMap 1) 1).1
          ⟨1, none, none, none⟩).1 1 = none ∧
      (onCommandResponse (sendCommandTimeout (sendCommandRegister emptyRpcMap 1) 1).1
          ⟨1, none, none, none⟩).2.2 = some FutState.cancelled) :=
  ⟨rfl, c1_timeout_keeps_entry emptyRpcMap 1 ⟨1, none, none, none⟩ rfl⟩

/-! ## Claim C4 -/

/-- Claim C4: a frame whose `app_id` differs from the session's own is
dropped before any dispatch — the pending-call map, the state-sink call
log and the vdata-sink call log are all left untouched. -/
theorem c4_wrong_app_id_ignored (appId a : String) (hs hv : Bool) (s : WssState)
    (p : WssPayload) (h1 : p.app_id = some a) (h2 : a ≠ appId) :
    (handleMessage appId hs hv s p).rpcFutures = s.rpcFutures ∧
    (handleMessage appId hs hv s p).stateCalls = s.stateCalls ∧
    (handleMessage appId hs hv s p).vdataCalls = s.vdataCalls := by
  have h : handleMessage appId hs hv s p = s := by
    simp [handleMessage, h1, h2]
  rw [h]
  exact ⟨rfl, rfl, rfl⟩

/-- Witness for C4: a frame carrying `app_id` "other", a `status` array, an
`id` and a `result` hits a session with `app_id` "me" and changes nothing. -/
theorem c4_wrong_app_id_witness :
    (⟨some "other", some ["x"], some 1, some "r", none, none⟩ : WssPayload).app_id =
      some "other" ∧
    "other" ≠ "me" ∧
    ((handleMessage "me" true true ⟨sendCommandRegister emptyRpcMap 1, [], []⟩
        ⟨some "other", some ["x"], some 1, some "r", none, none⟩).rpcFutures =
        (⟨sendCommandRegister emptyRpcMap 1, [], []⟩ : WssState).rpcFutures ∧
      (handleMessage "me" true true ⟨sendCommandRegister emptyRpcMap 1, [], []⟩
        ⟨some "other", some ["x"], some 1, some "r", none, none⟩).stateCalls =
        (⟨sendCommandRegister emptyRpcMap 1, [], []⟩ : WssState).stateCalls ∧
      (handleMessage "me" true true ⟨sendCommandRegister emptyRpcMap 1, [], []⟩
        ⟨some "other", some ["x"], some 1, some "r", none, none⟩).vdataCalls =
        (⟨sendCommandRegister emptyRpcMap 1, [], []⟩ : WssState).vdataCalls) :=
  ⟨rfl, by decide,
    c4_wrong_app_id_ignored "me" "other" true true ⟨sendCommandRegister emptyRpcMap 1, [], []⟩
      ⟨some "other", some ["x"], some 1, some "r", none, none⟩ rfl (by decide)⟩

/-! ## Claim C6 -/

/-- Counterexample for C6: a matching frame whose `status` array has 2
payloads produces ONE call to the state sink (with both payloads as
positional arguments), not the 2 sequential calls the claim states. -/
theorem c6_status_counterexample :
    (handleMessage "me" true true ⟨emptyRpcMap, [], []⟩
        ⟨some "me", some ["s1", "s2"], none, none, none, none⟩).stateCalls.length ≠ 2 ∧
    (handleMessage "me" true true ⟨emptyRpcMap, [], []⟩
        ⟨some "me", some ["s1", "s2"], none, none, none, none⟩).stateCalls =
      [["s1", "s2"]] := by
  constructor
  · decide
  · decide

/-- Amended C6: a frame whose payload has a `status` array of N payloads
(and a matching or absent `app_id`) triggers exactly ONE call to the
registered state sink, passing the N payloads as positional arguments in
array order; the pending-call map and the vdata sink are untouched. -/
theorem c6_status_single_call (appId : String) (hv : Bool) (s : WssState) (p : WssPayload)
    (st : List String) (happ : p.app_id = none ∨ p.app_id = some appId)
    (hst : p.status = some st) :
    (handleMessage appId true hv s p).stateCalls = s.stateCalls ++ [st] ∧
    (handleMessage appId true hv s p).rpcFutures = s.rpcFutures ∧
    (handleMessage appId true hv s p).vdataCalls = s.vdataCalls := by
  have h : handleMessage appId true hv s p = { s with stateCalls := s.stateCalls ++ [st] } := by
    rcases happ with h | h <;> simp [handleMessage, h, dispatchMessage, hst]
  rw [h]
  exact ⟨rfl, rfl, rfl⟩

/-- Witness for C6's amended statement with a 2-payload `status` array. -/
theorem c6_status_witness :
    ((⟨some "me", some ["a", "b"], none, none, none, none⟩ : WssPayload).app_id = none ∨
      (⟨some "me", some ["a", "b"], none, none, none, none⟩ : WssPayload).app_id =
        some "me") ∧
    (⟨some "me", some ["a", "b"], none, none, none, none⟩ : WssPayload).status =
      some ["a", "b"] ∧
    ((handleMessage "me" true true ⟨emptyRpcMap, [], []⟩
        ⟨some "me", some ["a", "b"], none, none, none, none⟩).stateCalls =
        [] ++ [["a", "b"]] ∧
      (handleMessage "me" true true ⟨emptyRpcMap, [], []⟩
        ⟨some "me", some ["a", "b"], none, none, none, none⟩).rpcFutures = emptyRpcMap ∧
      (handleMessage "me" true true ⟨emptyRpcMap, [], []⟩
        ⟨some "me", some ["a", "b"], none, none, none, none⟩).vdataCalls = []) :=
  ⟨Or.inr rfl, rfl,
    c6_status_single_call "me" true ⟨emptyRpcMap, [], []⟩
      ⟨some "me", some ["a", "b"], none, none, none, none⟩ ["a", "b"] (Or.inr rfl) rfl⟩

/-! ## Claims C7 and C8 -/

/-- C7: for the Response `{"id": 1, "error": {"code": 5, "message":
"boom"}}` with a pending call 1, the base transport raises
`RPCError("boom")` (the error object's message), while the BLE transport
raises `RPCError("Unknown error")` because `ble.py` line 202 reads the
message from the top level of the payload (`payload.get("message", ...)`)
instead of from the error object; on both, the result branch is not
taken. -/
theorem c7_ble_error_message_divergence :
    (onCommandResponse (sendCommandRegister emptyRpcMap 1)
        ⟨1, some ⟨some 5, some "boom"⟩, none, none⟩).2.2 =
      some (FutState.resolvedErr "boom") ∧
    (bleOnRpcDataDispatch (sendCommandRegister emptyRpcMap 1)
        ⟨1, some ⟨some 5, some "boom"⟩, none, none⟩).2 =
      some (FutState.resolvedErr "Unknown error") := by
  constructor
  · decide
  · decide

/-- Counterexample for C8: the debug-log line `<==PB: abc (99)` fails the
spec's checksum test (`len("abc") = 3 ≠ 99`), yet `ble.py` forwards it to
the subscriber — `_on_debug_log_received` performs no parsing at all. -/
theorem c8_checksum_counterexample :
    specDebugLineChecksumOk ("<==PB: abc (99)".toList) = false ∧
    bleOnDebugLogReceived true [] ("<==PB: abc (99)".toList) =
      [("<==PB: abc (99)".toList)] := by
  constructor
  · decide
  · decide

/-- Amended C8: the BLE transport does not parse debug-log notifications
and applies no checksum filter; every notification — including one whose
payload length differs from its checksum — is forwarded verbatim to the
subscriber when one is registered, and dropped only when none is. -/
theorem c8_debug_log_unfiltered (fwd : List (List Char)) (data : List Char)
    (hbad : specDebugLineChecksumOk data = false) :
    bleOnDebugLogReceived true fwd data = fwd ++ [data] ∧
    bleOnDebugLogReceived false fwd data = fwd :=
  ⟨rfl, rfl⟩

/-- Witness for C8's amended statement on a second malformed line. -/
theorem c8_debug_log_witness :
    specDebugLineChecksumOk ("<==PBD: hello (3)".toList) = false ∧
    (bleOnDebugLogReceived true [] ("<==PBD: hello (3)".toList) =
        [] ++ [("<==PBD: hello (3)".toList)] ∧
      bleOnDebugLogReceived false [] ("<==PBD: hello (3)".toList) = []) :=
  ⟨by decide, c8_debug_log_unfiltered [] ("<==PBD: hello (3)".toList) (by decide)⟩

/-! ## Claim C10 -/

/-- Reading a reference other than the written one is unaffected. -/
lemma readRef_writeRef_ne (h : Heap) (kr r : ℕ) (v : List ℕ) (hne : r ≠ kr) :
    readRef (writeRef h kr v) r = readRef h r := by
  have hne2 : kr ≠ r := Ne.symm hne
  simp [readRef, writeRef, List.getD_eq_getElem?_getD, List.getElem?_set, hne2]

/-- Reading back an in-range written reference yields the written value. -/
lemma readRef_writeRef_eq (h : Heap) (kr : ℕ) (v : List ℕ) (hlt : kr < h.length) :
    readRef (writeRef h kr v) kr = v := by
  simp [readRef, writeRef, List.getD_eq_getElem?_getD, List.getElem?_set, hlt]

/-- Pre-existing references survive an allocation at the end of the heap. -/
lemma readRef_append_lt (h : Heap) (v : List ℕ) (r : ℕ) (hr : r < h.length) :
    readRef (h ++ [v]) r = readRef h r := by
  simp only [readRef]
  exact List.getD_append _ _ _ _ hr

/-- The freshly allocated reference holds the allocated value. -/
lemma readRef_append_self (h : Heap) (v : List ℕ) :
    readRef (h ++ [v]) h.length = v := by
  simp [readRef, List.getD_append_right _ _ _ _ (le_refl h.length)]

/-- The encode loop writes only to its working-key reference. -/
lemma encodeLoopH_frame (d : List ℕ) : ∀ (h : Heap) (kr i r : ℕ), r ≠ kr →
    readRef (encodeLoopH d h kr i).2 r = readRef h r := by
  induction d with
  | nil => intro h kr i r _; rfl
  | cons b rest ih =>
    intro h kr i r hne
    simp only [encodeLoopH]
    rw [ih _ _ _ _ hne, readRef_writeRef_ne _ _ _ _ hne]

/-- The decode loop writes only to its working-key reference. -/
lemma decodeLoopH_frame (d : List ℕ) : ∀ (h : Heap) (kr i r : ℕ), r ≠ kr →
    readRef (decodeLoopH d h kr i).2 r = readRef h r := by
  induction d with
  | nil => intro h kr i r _; rfl
  | cons b rest ih =>
    intro h kr i r hne
    simp only [decodeLoopH]
    rw [ih _ _ _ _ hne, readRef_writeRef_ne _ _ _ _ hne]

/-- The `timed_key` loop writes only to its working-key reference. -/
lemma timedKeyGoH_frame (fuel : ℕ) : ∀ (h : Heap) (kr n r : ℕ), r ≠ kr →
    readRef (timedKeyGoH fuel h kr n).2 r = readRef h r := by
  induction fuel with
  | zero => intro h kr n r _; rfl
  | succ fuel ih =>
    intro h kr n r hne
    simp only [timedKeyGoH]
    split
    · rfl
    · rw [ih _ _ _ _ hne, readRef_writeRef_ne _ _ _ _ hne]

/-- The heap encode loop computes the pure encode loop on the working key. -/
lemma encodeLoopH_fst (d : List ℕ) : ∀ (h : Heap) (kr i : ℕ), kr < h.length →
    (encodeLoopH d h kr i).1 = encodeLoop d (readRef h kr) i := by
  induction d with
  | nil => intro h kr i _; rfl
  | cons b rest ih =>
    intro h kr i hlt
    simp only [encodeLoopH, encodeLoop, List.cons.injEq]
    refine ⟨trivial, ?_⟩
    rw [ih _ _ _ (by simpa [writeRef] using hlt), readRef_writeRef_eq _ _ _ hlt]

/-- The heap decode loop computes the pure decode loop on the working key. -/
lemma decodeLoopH_fst (d : List ℕ) : ∀ (h : Heap) (kr i : ℕ), kr < h.length →
    (decodeLoopH d h kr i).1 = decodeLoop d (readRef h kr) i := by
  induction d with
  | nil => intro h kr i _; rfl
  | cons b rest ih =>
    intro h kr i hlt
    simp only [decodeLoopH, decodeLoop, List.cons.injEq]
    refine ⟨trivial, ?_⟩
    rw [ih _ _ _ (by simpa [writeRef] using hlt), readRef_writeRef_eq _ _ _ hlt]

/-- The heap `timed_key` loop computes the pure loop on the working key. -/
lemma timedKeyGoH_fst (fuel : ℕ) : ∀ (h : Heap) (kr n : ℕ), kr < h.length →
    (timedKeyGoH fuel h kr n).1 = timedKeyGo fuel (readRef h kr) n := by
  induction fuel with
  | zero => intro h kr n _; rfl
  | succ fuel ih =>
    intro h kr n hlt
    simp only [timedKeyGoH, timedKeyGo]
    split
    · rfl
    · simp only [List.cons.injEq]
      refine ⟨trivial, ?_⟩
      rw [ih _ _ _ (by simpa [writeRef] using hlt), readRef_writeRef_eq _ _ _ hlt]

/-- Claim C10: `encode`, `decode` and `timed_key` never mutate any list the
caller can see — every pre-existing heap reference (the caller's key list
and the module-level `KEY` object included) reads the same after the call
as before, because each function evolves only its freshly allocated
private copy; moreover the heap-level results coincide with the pure
functions of the caller's key bytes. -/
theorem c10_codec_mutates_only_private_copy (h : Heap) (keyRef : ℕ) (pad x c : List ℕ)
    (u : ℚ) (r : ℕ) (hr : r < h.length) :
    readRef (encodeH h keyRef pad x).2 r = readRef h r ∧
    readRef (decodeH h keyRef c).2 r = readRef h r ∧
    readRef (timedKeyH h keyRef u).2 r = readRef h r ∧
    (encodeH h keyRef pad x).1 = encode pad x (readRef h keyRef) ∧
    (decodeH h keyRef c).1 = decode c (readRef h keyRef) ∧
    (timedKeyH h keyRef u).1 = timedKeyGo (readRef h keyRef).length (readRef h keyRef) (bucket u) := by
  have hne : r ≠ h.length := Nat.ne_of_lt hr
  have hfresh : h.length < (h ++ [readRef h keyRef]).length := by
    simp
  refine ⟨?_, ?_, ?_, ?_, ?_, ?_⟩
  · rw [encodeH, encodeLoopH_frame _ _ _ _ _ hne, readRef_append_lt _ _ _ hr]
  · rw [decodeH, decodeLoopH_frame _ _ _ _ _ hne, readRef_append_lt _ _ _ hr]
  · rw [timedKeyH, timedKeyGoH_frame _ _ _ _ _ hne, readRef_append_lt _ _ _ hr]
  · rw [encodeH, encode, encodeLoopH_fst _ _ _ _ hfresh, readRef_append_self]
  · rw [decodeH, decode, decodeLoopH_fst _ _ _ _ hfresh, readRef_append_self]
  · rw [timedKeyH, timedKeyGoH_fst _ _ _ _ hfresh, readRef_append_self]

/-- Witness for C10 on a one-object heap holding the `KEY` list. -/
theorem c10_codec_witness :
    (0 : ℕ) < ([KEY] : Heap).length ∧
    (readRef (encodeH [KEY] 0 [] [1]).2 0 = readRef [KEY] 0 ∧
      readRef (decodeH [KEY] 0 [255]).2 0 = readRef [KEY] 0 ∧
      readRef (timedKeyH [KEY] 0 11).2 0 = readRef [KEY] 0 ∧
      (encodeH [KEY] 0 [] [1]).1 = encode [] [1] (readRef [KEY] 0) ∧
      (decodeH [KEY] 0 [255]).1 = decode [255] (readRef [KEY] 0) ∧
      (timedKeyH [KEY] 0 11).1 =
        timedKeyGo (readRef [KEY] 0).length (readRef [KEY] 0) (bucket 11)) :=
  ⟨by decide, c10_codec_mutates_only_private_copy [KEY] 0 [] [1] [255] 11 0 (by decide)⟩
